import Mathlib

/-!
Verification development for the MyWhoosh2Garmin repository.

We give a shallow embedding of the parts of the program that the checked
claims are about:

* the FIT record-stream transform `cleanup_fit_file` (myWhoosh2Garmin.py)
  and `FitFileProcessor.process_file` (strava/test.py);
* source-file selection: `max(fit_files, key=mtime)` in
  `cleanup_and_save_fit_file` (myWhoosh2Garmin.py) and the
  version-token sort of `LocalSourceHandler.get_fit_files` (strava/test.py);
* the delivery ledger `ActivityDatabase` and the download retry logic of
  `ActivityDownloader` and `StravaClient.get_filtered_activities`
  (strava/main.py);
* the upload paths `upload_fit_file_to_garmin` (myWhoosh2Garmin.py) and
  `UploadManager.upload_file` plus the `main` control flow (strava/test.py);
* `GarminAuthenticator.authenticate` (strava/test.py).

Python numeric values appearing in messages are modelled as `Option Nat`
(raw integer fields, where `none` is Python `None`) and `Option Rat`
(average fields, which the code assigns float results of `sum/len`;
we use exact rationals).  Python truthiness of such a value is
"neither `None` nor `0`".
-/

namespace MW2G

/-- The closed set of FIT message kinds the transform dispatches on via
`isinstance`: `FileCreatorMessage`, `LapMessage`, `RecordMessage` (a sample),
`SessionMessage` (a session summary), and anything else.  `data` payloads
stand for the fields the transform never touches. -/
inductive Message where
  | creator (data : Nat)
  | lap (data : Nat)
  | sample (cadence power heartRate : Option Nat) (temperature : Option Int)
  | session (avgCadence avgPower avgHeartRate : Option Rat)
  | other (data : Nat)
deriving DecidableEq, Repr

/-- The three running value lists of the transform:
`cadence_values`, `power_values`, `heart_rate_values`. -/
structure Accum where
  cadenceValues : List Rat
  powerValues : List Rat
  heartRateValues : List Rat
deriving DecidableEq, Repr

/-- The accumulator the transform starts with, and re-creates at every
session boundary (`cadence_values = []` etc.). -/
def Accum.empty : Accum := ⟨[], [], []⟩

/-- Embeds `FitFileProcessor.calculate_avg`:
`sum(values) / len(values) if values else 0`.  The inline expressions in
`cleanup_fit_file` are the same formula. -/
def calculate_avg (values : List Rat) : Rat :=
  if values.isEmpty then 0 else values.sum / values.length

/-- Python truthiness test `not message.avg_x` on an optional numeric:
true when the value is `None` or `0`. -/
def optFalsy (o : Option Rat) : Bool :=
  decide (o.getD 0 = 0)

/-- Embeds `if not message.avg_x: message.avg_x = calculate_avg(values)` —
backfill an average field only when its current value is falsy. -/
def fillAvg (o : Option Rat) (values : List Rat) : Option Rat :=
  if optFalsy o then some (calculate_avg values) else o

/-- Embeds `message.cadence if message.cadence else 0` — the value appended to an
accumulator list (0 both for `None` and for 0). -/
def orZeroN (o : Option Nat) : Rat :=
  ((o.getD 0 : Nat) : Rat)

/-- One iteration of the `cleanup_fit_file` loop body (myWhoosh2Garmin.py,
lines 150–189): Creator/Lap are skipped (`continue`); a sample has its
temperature field removed and its cadence/power/heart-rate appended to the
accumulator; a session summary has each falsy average backfilled (the source
checks `avg_power` twice, which we reproduce) and the accumulator lists are
then rebound to `[]`; everything else is passed to the builder unchanged. -/
def cleanupStep (acc : Accum) (m : Message) : Accum × List Message :=
  match m with
  | .creator _ => (acc, [])
  | .lap _ => (acc, [])
  | .sample c p h _ =>
      (⟨acc.cadenceValues ++ [orZeroN c],
        acc.powerValues ++ [orZeroN p],
        acc.heartRateValues ++ [orZeroN h]⟩,
        [.sample c p h none])
  | .session ac ap ah =>
      (Accum.empty,
        [.session (fillAvg ac acc.cadenceValues)
          (fillAvg (fillAvg ap acc.powerValues) acc.powerValues)
          (fillAvg ah acc.heartRateValues)])
  | .other d => (acc, [.other d])

/-- Run the `cleanup_fit_file` loop from a given accumulator, returning the
final accumulator and the messages handed to the builder, in order. -/
def cleanupRun : Accum → List Message → Accum × List Message
  | acc, [] => (acc, [])
  | acc, m :: ms =>
      let s := cleanupStep acc m
      let r := cleanupRun s.1 ms
      (r.1, s.2 ++ r.2)

/-- Embeds `cleanup_fit_file` (myWhoosh2Garmin.py): the output message stream of the
transform, starting from empty accumulator lists. -/
def cleanup_fit_file (ms : List Message) : List Message :=
  (cleanupRun Accum.empty ms).2

/-- One iteration of the `FitFileProcessor.process_file` loop
(strava/test.py, lines 253–261): a sample is handled by
`_process_record_message` (strip temperature, accumulate), a session by
`_process_session_message` (backfill falsy averages, each checked once)
followed by rebinding the accumulator lists to `[]`; every message —
including Creator and Lap — is then added to the builder. -/
def processStep (acc : Accum) (m : Message) : Accum × Message :=
  match m with
  | .sample c p h _ =>
      (⟨acc.cadenceValues ++ [orZeroN c],
        acc.powerValues ++ [orZeroN p],
        acc.heartRateValues ++ [orZeroN h]⟩,
        .sample c p h none)
  | .session ac ap ah =>
      (Accum.empty,
        .session (fillAvg ac acc.cadenceValues)
          (fillAvg ap acc.powerValues)
          (fillAvg ah acc.heartRateValues))
  | m => (acc, m)

/-- Run the `process_file` loop from a given accumulator. -/
def processRun : Accum → List Message → Accum × List Message
  | acc, [] => (acc, [])
  | acc, m :: ms =>
      let s := processStep acc m
      let r := processRun s.1 ms
      (r.1, s.2 :: r.2)

/-- Embeds `FitFileProcessor.process_file` (strava/test.py): the output message
stream, starting from empty accumulator lists. -/
def process_file (ms : List Message) : List Message :=
  (processRun Accum.empty ms).2

/-- Is this message a `SessionMessage`? -/
def Message.isSession : Message → Bool
  | .session _ _ _ => true
  | _ => false

/-- The cadence values of the sample messages of a stream, in order, with 0
substituted for an absent or falsy field — the claim's description of the
values one interval accumulates. -/
def sampleCadences : List Message → List Rat
  | [] => []
  | .sample c _ _ _ :: ms => orZeroN c :: sampleCadences ms
  | _ :: ms => sampleCadences ms

/-- The power values of the sample messages of a stream, in order. -/
def samplePowers : List Message → List Rat
  | [] => []
  | .sample _ p _ _ :: ms => orZeroN p :: samplePowers ms
  | _ :: ms => samplePowers ms

/-- The heart-rate values of the sample messages of a stream, in order. -/
def sampleHeartRates : List Message → List Rat
  | [] => []
  | .sample _ _ h _ :: ms => orZeroN h :: sampleHeartRates ms
  | _ :: ms => sampleHeartRates ms

/-- The claim's formula for one average field: when the source value is
absent or falsy it becomes `sum/n` of the interval's accumulated values for
`n > 0` and `0` for `n = 0`; a truthy source value is left unchanged. -/
def specFill (o : Option Rat) (values : List Rat) : Option Rat :=
  if o = none ∨ o = some 0 then
    some (if values.length = 0 then 0 else values.sum / values.length)
  else o

/-- Embeds `isinstance(message, (FileCreatorMessage, LapMessage))` — the messages
`cleanup_fit_file` skips with `continue`. -/
def skippedMessage : Message → Bool
  | .creator _ => true
  | .lap _ => true
  | _ => false

/-- An output message corresponds to an input message: same kind, untouched
payloads preserved; a sample keeps its cadence/power/heart-rate and a session
stays a session (their edited fields are the business of other claims). -/
def corresponds : Message → Message → Prop
  | .creator d, .creator e => d = e
  | .lap d, .lap e => d = e
  | .other d, .other e => d = e
  | .sample c p h _, .sample c' p' h' _ => c = c' ∧ p = p' ∧ h = h'
  | .session _ _ _, .session _ _ _ => True
  | _, _ => False

/-- Does a sample message still carry its temperature field? -/
def Message.hasTemperature : Message → Bool
  | .sample _ _ _ (some _) => true
  | _ => false

/-- A candidate source file as the selectors see it: its filename stem and
its filesystem modification time. -/
structure FsFile where
  stem : List Char
  mtime : Nat
deriving DecidableEq, Repr

/-- Python `stem.split("-")`: split a character list at every `'-'`. -/
def splitOnDash : List Char → List (List Char)
  | [] => [[]]
  | c :: cs =>
      let r := splitOnDash cs
      if c = '-' then [] :: r
      else (c :: r.headD []) :: r.tail

/-- Worker for `digitRuns`, carrying the value of the digit run currently
being read. -/
def digitRunsGo : List Char → Option Nat → List Nat
  | [], none => []
  | [], some n => [n]
  | c :: cs, cur =>
      if c.isDigit then digitRunsGo cs (some (cur.getD 0 * 10 + (c.toNat - 48)))
      else
        match cur with
        | none => digitRunsGo cs none
        | some n => n :: digitRunsGo cs none

/-- Python `re.findall(r"(\d+)", s)` followed by `map(int, ...)`: the maximal
digit runs of a string, each read as a number. -/
def digitRuns (cs : List Char) : List Nat :=
  digitRunsGo cs none

/-- The sort key of `LocalSourceHandler.get_fit_files`:
`tuple(map(int, re.findall(r"(\d+)", f.stem.split("-")[-1])))`. -/
def versionKey (f : FsFile) : List Nat :=
  digitRuns ((splitOnDash f.stem).getLastD [])

/-- Python tuple comparison `a <= b` on numeric tuples: lexicographic, a
strict prefix sorting before its extensions. -/
def lexLe : List Nat → List Nat → Bool
  | [], _ => true
  | _ :: _, [] => false
  | a :: as, b :: bs =>
      if a < b then true else if b < a then false else lexLe as bs

/-- The comparator realising `sorted(..., key=versionKey, reverse=True)`:
`f` sorts no later than `g` when `f`'s key is at least `g`'s. -/
def fitFileGe (f g : FsFile) : Bool :=
  lexLe (versionKey g) (versionKey f)

/-- Embeds `LocalSourceHandler.get_fit_files` (strava/test.py): the candidate files
stably sorted by parsed version token, descending.  Python's `sorted` is a
stable merge sort, modelled by `List.mergeSort`. -/
def get_fit_files (files : List FsFile) : List FsFile :=
  files.mergeSort fitFileGe

/-- The file `main` (strava/test.py) feeds to the processor:
`fit_files[0]`, i.e. the head of the descending version-sorted listing. -/
def localSelect (files : List FsFile) : Option FsFile :=
  (get_fit_files files).head?

/-- The body of Python's `max(..., key=mtime)` fold: keep the current best
unless the next candidate's mtime is strictly greater. -/
def mtimeStep (best g : FsFile) : FsFile :=
  if best.mtime < g.mtime then g else best

/-- The selection step of `cleanup_and_save_fit_file` (myWhoosh2Garmin.py):
`max(fit_files, key=lambda f: f.stat().st_mtime)` on a non-empty listing,
nothing on an empty one. -/
def selectFitFile (files : List FsFile) : Option FsFile :=
  match files with
  | [] => none
  | f :: fs => some (fs.foldl mtimeStep f)

/-- A candidate whose filename carries version token 2, modified late. -/
def fileV2 : FsFile := ⟨"MyNewActivity-2".data, 10⟩

/-- A candidate whose filename carries version token 3, modified early. -/
def fileV3 : FsFile := ⟨"MyNewActivity-3".data, 5⟩

/-- Responses the Strava endpoints can give to one HTTP request. -/
inductive HttpResp where
  | ok
  | unauthorized
  | serverError
deriving DecidableEq, Repr

/-- Embeds `ActivityDatabase.is_downloaded`: is the activity id in the ledger? -/
def is_downloaded (db : List Nat) (aid : Nat) : Bool :=
  decide (aid ∈ db)

/-- Embeds `ActivityDatabase.mark_downloaded`: `INSERT OR IGNORE` on the
primary-key column — insert the id only if absent. -/
def mark_downloaded (db : List Nat) (aid : Nat) : List Nat :=
  if aid ∈ db then db else db ++ [aid]

/-- Outcome of a download attempt or of `download_activity` as a whole.
`attributeError` is the `AttributeError` raised by
`self.session.auth.refresh_token()` when `session.auth` is `None`. -/
inductive DlResult where
  | alreadyDownloaded
  | success
  | httpError (r : HttpResp)
  | attributeError
deriving DecidableEq, Repr

/-- Observable run of the downloader: its outcome, the ledger afterwards,
how many transfer requests were issued and how many refresh calls made. -/
structure DlRun where
  result : DlResult
  db : List Nat
  requests : Nat
  refreshes : Nat
deriving DecidableEq, Repr

/-- Embeds `ActivityDownloader._download_attempt` (strava/main.py): when the ledger
already holds the id, return `False` without any request; otherwise issue
the request — `resp` is the destination's answer — and either raise on a
non-ok status or write the file, mark the ledger and return `True`. -/
def downloadAttempt (db : List Nat) (aid : Nat) (resp : HttpResp) : DlRun :=
  if is_downloaded db aid then ⟨.alreadyDownloaded, db, 0, 0⟩
  else
    match resp with
    | .ok => ⟨.success, mark_downloaded db aid, 1, 0⟩
    | r => ⟨.httpError r, db, 1, 0⟩

/-- Embeds `ActivityDownloader.download_activity` (strava/main.py): run one
attempt; when it raises with status 401 the handler calls
`self.session.auth.refresh_token()` — but `self.session` is the plain
`requests.Session` built in `StravaAuth.__init__` (the builder passes
`self.auth.session`) and nothing ever assigns its `auth` attribute, so it
is `None` (the `requests.Session` default) and the call raises
`AttributeError`, which escapes the `except requests.HTTPError` handler:
one request issued, no refresh, no retry, no ledger write.  Any other
error is re-raised.  `r1` is the response the destination would give to
the first (and only possible) request. -/
def download_activity (db : List Nat) (aid : Nat) (r1 : HttpResp) : DlRun :=
  let a1 := downloadAttempt db aid r1
  match a1.result with
  | .httpError .unauthorized => ⟨.attributeError, a1.db, a1.requests, 0⟩
  | r => ⟨r, a1.db, a1.requests, 0⟩

/-- Embeds `StravaClient.get_filtered_activities` (strava/main.py), viewed through
the successive responses of the activities endpoint (session refresh is
modelled as succeeding, as the claim assumes): on a 401 it refreshes the
token and *recursively re-invokes itself*; any other response ends the
recursion after that one request.  Returns the total number of requests and
of refresh calls, or `none` when every provided response is a 401 — the
recursion is still going, no bound exists. -/
def get_filtered_activities : List HttpResp → Option (Nat × Nat)
  | [] => none
  | .unauthorized :: rs =>
      match get_filtered_activities rs with
      | none => none
      | some (a, f) => some (a + 1, f + 1)
  | _ :: _ => some (1, 0)

/-- Responses the Garmin upload endpoint can give. -/
inductive UploadResp where
  | ack
  | duplicateError
  | unauthorizedError
  | otherError
deriving DecidableEq, Repr

/-- What `upload_fit_file_to_garmin` did — the type has no raising
constructor because the function lets no exception out. -/
inductive MwUploadOutcome where
  | uploadedOk
  | errorSwallowed
  | skippedInvalidPath
deriving DecidableEq, Repr

/-- Embeds `upload_fit_file_to_garmin` (myWhoosh2Garmin.py): uploads when the path
is valid; every `GarthHTTPError` — the duplicate-activity error included —
is caught, "Duplicate activity found." is logged, and the function returns
normally.  No delivery ledger exists in this pipeline. -/
def upload_fit_file_to_garmin (fileOk : Bool) (resp : UploadResp) :
    MwUploadOutcome :=
  if fileOk then
    match resp with
    | .ack => .uploadedOk
    | _ => .errorSwallowed
  else .skippedInvalidPath

/-- What `UploadManager.upload_file` did. -/
inductive UmUploadOutcome where
  | uploadedOk
  | raised (e : UploadResp)
deriving DecidableEq, Repr

/-- Embeds `UploadManager.upload_file` (strava/test.py): logs "Upload failed" and
*re-raises* every `GarthHTTPError`, the duplicate-activity error included. -/
def upload_file (resp : UploadResp) : UmUploadOutcome :=
  match resp with
  | .ack => .uploadedOk
  | e => .raised e

/-- Observable outcome of one `main` run (strava/test.py): the process exit
code, whether a transform/backup write happened, and whether an upload was
attempted. -/
structure MainOutcome where
  exitCode : Nat
  processedFile : Bool
  uploadAttempted : Bool
deriving DecidableEq, Repr

/-- Embeds `main` (strava/test.py) on the local source: take the sorted listing;
when it is empty, log "No FIT files found" and `return` — a normal return,
so the process exits 0 with nothing processed and nothing uploaded;
otherwise process the head file, authenticate, upload, the top-level
handler turning any raised exception into `sys.exit(1)`. -/
def mainRun (files : List FsFile) (resp : UploadResp) : MainOutcome :=
  match get_fit_files files with
  | [] => ⟨0, false, false⟩
  | _ :: _ =>
      match upload_file resp with
      | .uploadedOk => ⟨0, true, true⟩
      | .raised _ => ⟨1, true, true⟩

/-- Garmin login credentials. -/
structure Credentials where
  username : String
  password : String
deriving DecidableEq, Repr

/-- Observable outcome of `GarminAuthenticator.authenticate`. -/
inductive AuthOutcome where
  | resumedSession
  | fullAuthDone
  | invalidCredentials
  | returnedWithoutSession
deriving DecidableEq, Repr

/-- Embeds `GarminAuthenticator._try_resume_session` (strava/test.py): succeeds
only when the token file exists and the resumed session answers the
username probe without raising. -/
def tryResumeSession (tokensExist sessionValid : Bool) : Bool :=
  if tokensExist then sessionValid else false

/-- Embeds `GarminAuthenticator.authenticate` (strava/test.py): `return` if the
session resumed; otherwise perform the full login only `if credentials:`;
with no credentials the method falls through and returns `None` — no
session, no exception. -/
def authenticate (tokensExist sessionValid : Bool)
    (credentials : Option Credentials) (loginOk : Bool) : AuthOutcome :=
  if tryResumeSession tokensExist sessionValid then .resumedSession
  else
    match credentials with
    | some _ => if loginOk then .fullAuthDone else .invalidCredentials
    | none => .returnedWithoutSession

/-- The specification's concrete scenario: two samples with cadence 80/90,
power 200/210 and heart-rate 0 feeding one session summary. -/
def sampleScenario : List Message :=
  [.sample (some 80) (some 200) (some 0) none,
    .sample (some 90) (some 210) (some 0) none]

@[simp] theorem cleanupRun_nil (acc : Accum) : cleanupRun acc [] = (acc, []) := rfl

@[simp] theorem cleanupRun_cons (acc : Accum) (m : Message) (ms : List Message) :
    cleanupRun acc (m :: ms) =
      ((cleanupRun (cleanupStep acc m).1 ms).1,
        (cleanupStep acc m).2 ++ (cleanupRun (cleanupStep acc m).1 ms).2) := rfl

@[simp] theorem processRun_nil (acc : Accum) : processRun acc [] = (acc, []) := rfl

@[simp] theorem processRun_cons (acc : Accum) (m : Message) (ms : List Message) :
    processRun acc (m :: ms) =
      ((processRun (processStep acc m).1 ms).1,
        (processStep acc m).2 :: (processRun (processStep acc m).1 ms).2) := rfl

/-- Splitting a `cleanup_fit_file` run at a list append. -/
theorem cleanupRun_append (acc : Accum) (xs ys : List Message) :
    cleanupRun acc (xs ++ ys) =
      ((cleanupRun (cleanupRun acc xs).1 ys).1,
        (cleanupRun acc xs).2 ++ (cleanupRun (cleanupRun acc xs).1 ys).2) := by
  induction xs generalizing acc with
  | nil => simp
  | cons m xs ih => simp [ih]

/-- Splitting a `process_file` run at a list append. -/
theorem processRun_append (acc : Accum) (xs ys : List Message) :
    processRun acc (xs ++ ys) =
      ((processRun (processRun acc xs).1 ys).1,
        (processRun acc xs).2 ++ (processRun (processRun acc xs).1 ys).2) := by
  induction xs generalizing acc with
  | nil => simp
  | cons m xs ih => simp [ih]

/-- Over a session-free stretch of the stream, the `cleanup_fit_file`
accumulator just appends the sample values. -/
theorem cleanupRun_fst_of_noSession (ms : List Message)
    (h : ∀ m ∈ ms, m.isSession = false) (acc : Accum) :
    (cleanupRun acc ms).1 =
      ⟨acc.cadenceValues ++ sampleCadences ms,
        acc.powerValues ++ samplePowers ms,
        acc.heartRateValues ++ sampleHeartRates ms⟩ := by
  induction ms generalizing acc with
  | nil => simp [sampleCadences, samplePowers, sampleHeartRates]
  | cons m ms ih =>
    have hm := h m (List.mem_cons_self m ms)
    have hms : ∀ x ∈ ms, x.isSession = false := fun x hx => h x (List.mem_cons_of_mem m hx)
    cases m with
    | creator d =>
        simp [cleanupStep, ih hms, sampleCadences, samplePowers, sampleHeartRates]
    | lap d =>
        simp [cleanupStep, ih hms, sampleCadences, samplePowers, sampleHeartRates]
    | sample c p hr t =>
        simp [cleanupStep, ih hms, sampleCadences, samplePowers, sampleHeartRates]
    | session ac ap ah => simp [Message.isSession] at hm
    | other d =>
        simp [cleanupStep, ih hms, sampleCadences, samplePowers, sampleHeartRates]

/-- Over a session-free stretch of the stream, the `process_file`
accumulator just appends the sample values. -/
theorem processRun_fst_of_noSession (ms : List Message)
    (h : ∀ m ∈ ms, m.isSession = false) (acc : Accum) :
    (processRun acc ms).1 =
      ⟨acc.cadenceValues ++ sampleCadences ms,
        acc.powerValues ++ samplePowers ms,
        acc.heartRateValues ++ sampleHeartRates ms⟩ := by
  induction ms generalizing acc with
  | nil => simp [sampleCadences, samplePowers, sampleHeartRates]
  | cons m ms ih =>
    have hm := h m (List.mem_cons_self m ms)
    have hms : ∀ x ∈ ms, x.isSession = false := fun x hx => h x (List.mem_cons_of_mem m hx)
    cases m with
    | creator d =>
        simp [processStep, ih hms, sampleCadences, samplePowers, sampleHeartRates]
    | lap d =>
        simp [processStep, ih hms, sampleCadences, samplePowers, sampleHeartRates]
    | sample c p hr t =>
        simp [processStep, ih hms, sampleCadences, samplePowers, sampleHeartRates]
    | session ac ap ah => simp [Message.isSession] at hm
    | other d =>
        simp [processStep, ih hms, sampleCadences, samplePowers, sampleHeartRates]

/-- After the message stream passes a session summary, the
`cleanup_fit_file` accumulator is the empty one again. -/
theorem cleanupRun_fst_session_end (acc : Accum) (xs : List Message)
    (ac ap ah : Option Rat) :
    (cleanupRun acc (xs ++ [.session ac ap ah])).1 = Accum.empty := by
  rw [cleanupRun_append]; rfl

/-- After the message stream passes a session summary, the `process_file`
accumulator is the empty one again. -/
theorem processRun_fst_session_end (acc : Accum) (xs : List Message)
    (ac ap ah : Option Rat) :
    (processRun acc (xs ++ [.session ac ap ah])).1 = Accum.empty := by
  rw [processRun_append]; rfl

/-- Lemma: `calculate_avg` written with a length test instead of an emptiness
test. -/
theorem calculate_avg_eq (values : List Rat) :
    calculate_avg values =
      (if values.length = 0 then 0 else values.sum / values.length) := by
  cases values <;> simp [calculate_avg]

/-- The source's backfill of one average field equals the claim's formula. -/
theorem fillAvg_eq_specFill (o : Option Rat) (values : List Rat) :
    fillAvg o values = specFill o values := by
  cases o with
  | none => simp [fillAvg, specFill, optFalsy, calculate_avg_eq]
  | some q =>
      by_cases hq : q = 0 <;> simp [fillAvg, specFill, optFalsy, hq, calculate_avg_eq]

/-- The source's repeated `avg_power` backfill collapses to a single one. -/
theorem fillAvg_fillAvg (o : Option Rat) (values : List Rat) :
    fillAvg (fillAvg o values) values = fillAvg o values := by
  by_cases h : optFalsy o
  · simp only [fillAvg, h, if_true]
    split <;> rfl
  · simp only [fillAvg, h, if_false, Bool.false_eq_true]

/-- Every message `cleanup_fit_file` emits corresponds, in order, to a
message of the input with Creator and Lap filtered out. -/
theorem cleanupRun_forall₂ (ms : List Message) (acc : Accum) :
    List.Forall₂ corresponds (ms.filter (fun m => !skippedMessage m))
      (cleanupRun acc ms).2 := by
  induction ms generalizing acc with
  | nil => simp
  | cons m ms ih =>
    cases m with
    | creator d => simpa [skippedMessage, cleanupStep] using ih _
    | lap d => simpa [skippedMessage, cleanupStep] using ih _
    | sample c p h t =>
        simp only [List.filter_cons, skippedMessage, Bool.not_false, if_pos,
          cleanupRun_cons, cleanupStep, List.singleton_append]
        exact List.Forall₂.cons ⟨rfl, rfl, rfl⟩ (ih _)
    | session ac ap ah =>
        simp only [List.filter_cons, skippedMessage, Bool.not_false, if_pos,
          cleanupRun_cons, cleanupStep, List.singleton_append]
        exact List.Forall₂.cons trivial (ih _)
    | other d =>
        simp only [List.filter_cons, skippedMessage, Bool.not_false, if_pos,
          cleanupRun_cons, cleanupStep, List.singleton_append]
        exact List.Forall₂.cons rfl (ih _)

/-- Every message `process_file` emits corresponds, in order, to the message
of the input at the same position: nothing is dropped at all. -/
theorem processRun_forall₂ (ms : List Message) (acc : Accum) :
    List.Forall₂ corresponds ms (processRun acc ms).2 := by
  induction ms generalizing acc with
  | nil => simp
  | cons m ms ih =>
    cases m with
    | creator d => exact List.Forall₂.cons rfl (ih _)
    | lap d => exact List.Forall₂.cons rfl (ih _)
    | sample c p h t => exact List.Forall₂.cons ⟨rfl, rfl, rfl⟩ (ih _)
    | session ac ap ah => exact List.Forall₂.cons trivial (ih _)
    | other d => exact List.Forall₂.cons rfl (ih _)

/-- No message emitted by the `cleanup_fit_file` loop carries a temperature
field. -/
theorem cleanupRun_no_temperature (ms : List Message) (acc : Accum)
    (m : Message) (hm : m ∈ (cleanupRun acc ms).2) :
    m.hasTemperature = false := by
  induction ms generalizing acc with
  | nil => simp at hm
  | cons x ms ih =>
    cases x with
    | creator d =>
        simp only [cleanupRun_cons, cleanupStep, List.nil_append] at hm
        exact ih _ hm
    | lap d =>
        simp only [cleanupRun_cons, cleanupStep, List.nil_append] at hm
        exact ih _ hm
    | sample c p h t =>
        simp only [cleanupRun_cons, cleanupStep, List.singleton_append,
          List.mem_cons] at hm
        rcases hm with rfl | hm
        · rfl
        · exact ih _ hm
    | session ac ap ah =>
        simp only [cleanupRun_cons, cleanupStep, List.singleton_append,
          List.mem_cons] at hm
        rcases hm with rfl | hm
        · rfl
        · exact ih _ hm
    | other d =>
        simp only [cleanupRun_cons, cleanupStep, List.singleton_append,
          List.mem_cons] at hm
        rcases hm with rfl | hm
        · rfl
        · exact ih _ hm

/-- No message emitted by the `process_file` loop carries a temperature
field. -/
theorem processRun_no_temperature (ms : List Message) (acc : Accum)
    (m : Message) (hm : m ∈ (processRun acc ms).2) :
    m.hasTemperature = false := by
  induction ms generalizing acc with
  | nil => simp at hm
  | cons x ms ih =>
    cases x with
    | creator d =>
        simp only [processRun_cons, processStep, List.mem_cons] at hm
        rcases hm with rfl | hm
        · rfl
        · exact ih _ hm
    | lap d =>
        simp only [processRun_cons, processStep, List.mem_cons] at hm
        rcases hm with rfl | hm
        · rfl
        · exact ih _ hm
    | sample c p h t =>
        simp only [processRun_cons, processStep, List.mem_cons] at hm
        rcases hm with rfl | hm
        · rfl
        · exact ih _ hm
    | session ac ap ah =>
        simp only [processRun_cons, processStep, List.mem_cons] at hm
        rcases hm with rfl | hm
        · rfl
        · exact ih _ hm
    | other d =>
        simp only [processRun_cons, processStep, List.mem_cons] at hm
        rcases hm with rfl | hm
        · rfl
        · exact ih _ hm

/-- Claim C1: for every session-free interval of messages feeding one session
summary, both transforms (`cleanup_fit_file` and
`FitFileProcessor.process_file`) emit that summary with each of
avg-cadence/avg-power/avg-heart-rate that was absent or falsy set to `sum/n`
of the interval's accumulated sample values when `n > 0` and to `0` when
`n = 0`, independently per metric, leaving a truthy source value unchanged;
each accumulated value is the sample's field value with `0` substituted for
an absent or falsy field (`specFill`, `sampleCadences` …). -/
theorem claim_C1_interval_averages (ms : List Message)
    (h : ∀ m ∈ ms, m.isSession = false) (ac ap ah : Option Rat) :
    cleanup_fit_file (ms ++ [.session ac ap ah]) =
      cleanup_fit_file ms ++
        [.session (specFill ac (sampleCadences ms))
          (specFill ap (samplePowers ms))
          (specFill ah (sampleHeartRates ms))] ∧
    process_file (ms ++ [.session ac ap ah]) =
      process_file ms ++
        [.session (specFill ac (sampleCadences ms))
          (specFill ap (samplePowers ms))
          (specFill ah (sampleHeartRates ms))] := by
  constructor
  · show (cleanupRun Accum.empty (ms ++ [Message.session ac ap ah])).2 = _
    rw [cleanupRun_append, cleanupRun_fst_of_noSession ms h]
    simp only [cleanupRun_cons, cleanupRun_nil, cleanupStep, Accum.empty,
      List.nil_append, List.append_nil]
    rw [fillAvg_fillAvg]
    simp [cleanup_fit_file, fillAvg_eq_specFill]
    rfl
  · show (processRun Accum.empty (ms ++ [Message.session ac ap ah])).2 = _
    rw [processRun_append, processRun_fst_of_noSession ms h]
    simp only [processRun_cons, processRun_nil, processStep, Accum.empty,
      List.nil_append, List.append_nil]
    simp [process_file, fillAvg_eq_specFill]
    rfl

/-- Witness for C1: the specification's concrete scenario, instantiating the
theorem at two samples (cadence 80/90, power 200/210, heart-rate 0) and a
session summary with all three averages absent. -/
theorem claim_C1_interval_averages_witness :
    (∀ m ∈ sampleScenario, m.isSession = false) ∧
    (cleanup_fit_file (sampleScenario ++ [.session none none none]) =
      cleanup_fit_file sampleScenario ++
        [.session (specFill none (sampleCadences sampleScenario))
          (specFill none (samplePowers sampleScenario))
          (specFill none (sampleHeartRates sampleScenario))] ∧
    process_file (sampleScenario ++ [.session none none none]) =
      process_file sampleScenario ++
        [.session (specFill none (sampleCadences sampleScenario))
          (specFill none (samplePowers sampleScenario))
          (specFill none (sampleHeartRates sampleScenario))]) :=
  ⟨by decide, claim_C1_interval_averages sampleScenario (by decide) none none none⟩

/-- Claim C2 counterexample: `FitFileProcessor.process_file` does *not* remove
Lap messages — on the one-message stream `[lap 7]` the claim demands the
empty output, but the code emits the Lap message unchanged. -/
theorem claim_C2_counterexample :
    process_file [Message.lap 7] = [Message.lap 7] ∧
    process_file [Message.lap 7] ≠ [] := by
  constructor
  · rfl
  · decide

/-- Claim C2, amended: `cleanup_fit_file` emits exactly the input messages
with all Creator and Lap messages removed, in their original relative order,
nothing else dropped, duplicated or reordered; `process_file`, however,
emits *every* input message — including Creator and Lap — in order. -/
theorem claim_C2_order_preservation (ms : List Message) :
    List.Forall₂ corresponds (ms.filter (fun m => !skippedMessage m))
      (cleanup_fit_file ms) ∧
    List.Forall₂ corresponds ms (process_file ms) :=
  ⟨cleanupRun_forall₂ ms Accum.empty, processRun_forall₂ ms Accum.empty⟩

/-- Claim C3: both transforms reset the accumulator at every session-summary
boundary: the output for a stream continuing after a summary is the output
up to and including the summary followed by the output of the rest computed
from a fresh (empty) accumulator — so a later summary can never see a
cumulative total reaching back before the previous boundary. -/
theorem claim_C3_accumulator_reset (xs ys : List Message)
    (ac ap ah : Option Rat) :
    cleanup_fit_file (xs ++ .session ac ap ah :: ys) =
      cleanup_fit_file (xs ++ [.session ac ap ah]) ++ cleanup_fit_file ys ∧
    process_file (xs ++ .session ac ap ah :: ys) =
      process_file (xs ++ [.session ac ap ah]) ++ process_file ys := by
  have hx : xs ++ Message.session ac ap ah :: ys =
      (xs ++ [Message.session ac ap ah]) ++ ys := by simp
  constructor
  · rw [hx]
    show (cleanupRun Accum.empty _).2 = _
    rw [cleanupRun_append, cleanupRun_fst_session_end]
    rfl
  · rw [hx]
    show (processRun Accum.empty _).2 = _
    rw [processRun_append, processRun_fst_session_end]
    rfl

/-- Claim C4: no message in the output of either transform retains the
temperature field — in particular no Sample message does, for every input
including those whose samples carried it. -/
theorem claim_C4_temperature_removed (ms : List Message) (m : Message) :
    (m ∈ cleanup_fit_file ms → m.hasTemperature = false) ∧
    (m ∈ process_file ms → m.hasTemperature = false) :=
  ⟨cleanupRun_no_temperature ms Accum.empty m,
    processRun_no_temperature ms Accum.empty m⟩

/-- Lemma: `lexLe` is reflexive. -/
theorem lexLe_refl (l : List Nat) : lexLe l l = true := by
  induction l with
  | nil => rfl
  | cons a as ih => simp [lexLe, ih]

/-- Lemma: `lexLe` is total. -/
theorem lexLe_total (a b : List Nat) : lexLe a b = true ∨ lexLe b a = true := by
  induction a generalizing b with
  | nil => left; rfl
  | cons x xs ih =>
    cases b with
    | nil => right; rfl
    | cons y ys =>
      rcases Nat.lt_trichotomy x y with h | h | h
      · left; simp [lexLe, h]
      · subst h
        rcases ih ys with h2 | h2
        · left; simp [lexLe, h2]
        · right; simp [lexLe, h2]
      · right; simp [lexLe, h]

/-- Lemma: `lexLe` is transitive. -/
theorem lexLe_trans (a b c : List Nat) (hab : lexLe a b = true)
    (hbc : lexLe b c = true) : lexLe a c = true := by
  induction a generalizing b c with
  | nil => rfl
  | cons x xs ih =>
    cases b with
    | nil => simp [lexLe] at hab
    | cons y ys =>
      cases c with
      | nil => simp [lexLe] at hbc
      | cons z zs =>
        simp only [lexLe] at hab hbc ⊢
        by_cases h1 : x < y
        · by_cases h2 : y < z
          · simp [Nat.lt_trans h1 h2]
          · by_cases h3 : z < y
            · simp [h2, h3] at hbc
            · have hyz : y = z :=
                Nat.le_antisymm (Nat.le_of_not_lt h3) (Nat.le_of_not_lt h2)
              subst hyz
              simp [h1]
        · by_cases h1' : y < x
          · simp [h1, h1'] at hab
          · have hxy : x = y :=
              Nat.le_antisymm (Nat.le_of_not_lt h1') (Nat.le_of_not_lt h1)
            subst hxy
            simp only [Nat.lt_irrefl, if_false] at hab
            by_cases h2 : x < z
            · simp [h2]
            · by_cases h3 : z < x
              · simp [h2, h3] at hbc
              · have hxz : x = z :=
                  Nat.le_antisymm (Nat.le_of_not_lt h3) (Nat.le_of_not_lt h2)
                subst hxz
                simp only [Nat.lt_irrefl, if_false] at hbc ⊢
                exact ih ys zs hab hbc

/-- Lemma: `get_fit_files` yields a head that is maximal for the parsed version
key, and the head is one of the candidates. -/
theorem localSelect_max (files : List FsFile) (f : FsFile)
    (hf : localSelect files = some f) :
    f ∈ files ∧ ∀ g ∈ files, lexLe (versionKey g) (versionKey f) = true := by
  have htrans : ∀ a b c : FsFile, fitFileGe a b → fitFileGe b c → fitFileGe a c :=
    fun a b c hab hbc => lexLe_trans _ _ _ hbc hab
  have htotal : ∀ a b : FsFile, fitFileGe a b || fitFileGe b a := by
    intro a b
    rcases lexLe_total (versionKey b) (versionKey a) with h | h <;>
      simp [fitFileGe, h]
  have hperm : (get_fit_files files).Perm files :=
    List.mergeSort_perm files fitFileGe
  have hsorted : (get_fit_files files).Pairwise (fun a b => fitFileGe a b) :=
    List.sorted_mergeSort htrans htotal files
  unfold localSelect at hf
  cases hs : get_fit_files files with
  | nil => rw [hs] at hf; simp at hf
  | cons f0 t =>
    rw [hs] at hf hperm hsorted
    simp only [List.head?] at hf
    cases hf
    constructor
    · exact hperm.mem_iff.mp (List.mem_cons_self _ _)
    · intro g hg
      rcases List.mem_cons.mp (hperm.mem_iff.mpr hg) with h | h
      · subst h; exact lexLe_refl _
      · exact (List.pairwise_cons.mp hsorted).1 g h

/-- The starting value of the `max` fold never exceeds the result. -/
theorem foldl_mtimeStep_le (fs : List FsFile) (x : FsFile) :
    x.mtime ≤ (fs.foldl mtimeStep x).mtime := by
  induction fs generalizing x with
  | nil => exact Nat.le_refl _
  | cons g fs ih =>
    refine Nat.le_trans ?_ (ih (mtimeStep x g))
    unfold mtimeStep
    split
    · exact Nat.le_of_lt ‹_›
    · exact Nat.le_refl _

/-- The result of the `max` fold is the start value or one of the list's
elements. -/
theorem foldl_mtimeStep_mem (fs : List FsFile) (x : FsFile) :
    fs.foldl mtimeStep x = x ∨ fs.foldl mtimeStep x ∈ fs := by
  induction fs generalizing x with
  | nil => left; rfl
  | cons g fs ih =>
    rw [List.foldl_cons]
    rcases ih (mtimeStep x g) with h | h
    · rw [h]
      unfold mtimeStep
      split
      · right; exact List.mem_cons_self _ _
      · left; rfl
    · right; exact List.mem_cons_of_mem _ h

/-- Every element of the list has mtime at most that of the `max` fold's
result. -/
theorem foldl_mtimeStep_ge (fs : List FsFile) (x : FsFile) :
    ∀ g ∈ fs, g.mtime ≤ (fs.foldl mtimeStep x).mtime := by
  induction fs generalizing x with
  | nil => intro g hg; simp at hg
  | cons a fs ih =>
    intro g hg
    rw [List.foldl_cons]
    rcases List.mem_cons.mp hg with rfl | hg'
    · refine Nat.le_trans ?_ (foldl_mtimeStep_le fs (mtimeStep x g))
      unfold mtimeStep
      split
      · exact Nat.le_refl _
      · exact Nat.le_of_not_lt ‹_›
    · exact ih (mtimeStep x a) g hg'

/-- Lemma: `cleanup_and_save_fit_file`'s selection returns a candidate of maximal
modification time. -/
theorem selectFitFile_max (files : List FsFile) (f : FsFile)
    (hf : selectFitFile files = some f) :
    f ∈ files ∧ ∀ g ∈ files, g.mtime ≤ f.mtime := by
  cases files with
  | nil => simp [selectFitFile] at hf
  | cons x fs =>
    simp only [selectFitFile, Option.some.injEq] at hf
    subst hf
    constructor
    · rcases foldl_mtimeStep_mem fs x with h | h
      · rw [h]; exact List.mem_cons_self _ _
      · exact List.mem_cons_of_mem _ h
    · intro g hg
      rcases List.mem_cons.mp hg with rfl | hg'
      · exact foldl_mtimeStep_le fs g
      · exact foldl_mtimeStep_ge fs x g hg'

/-- Claim C5 counterexample: with two candidates — version token 2 modified at
time 10, version token 3 modified at time 5 — `cleanup_and_save_fit_file`
selects by modification time and returns the version-2 file, not the single
candidate with the greatest parsed version token. -/
theorem claim_C5_counterexample :
    selectFitFile [fileV2, fileV3] = some fileV2 ∧
    fileV2 ≠ fileV3 ∧
    versionKey fileV2 = [2] ∧ versionKey fileV3 = [3] ∧
    lexLe (versionKey fileV3) (versionKey fileV2) = false := by decide

/-- Claim C5, amended: `LocalSourceHandler.get_fit_files` sorts by the parsed
numeric version token descending, so the candidate `main` takes (the head)
has a maximal version key among the listing; `cleanup_and_save_fit_file`
instead selects the candidate of greatest filesystem modification time. -/
theorem claim_C5_source_selection (files : List FsFile) (f g : FsFile) :
    (localSelect files = some f →
      f ∈ files ∧ ∀ x ∈ files, lexLe (versionKey x) (versionKey f) = true) ∧
    (selectFitFile files = some g →
      g ∈ files ∧ ∀ x ∈ files, x.mtime ≤ g.mtime) :=
  ⟨localSelect_max files f, selectFitFile_max files g⟩

/-- Witness for C5: on the listing `[fileV3, fileV2]` the version sort
returns the version-3 file and the mtime `max` returns the version-2 file,
each maximal for its own key. -/
theorem claim_C5_source_selection_witness :
    (localSelect [fileV3, fileV2] = some fileV3 ∧
      selectFitFile [fileV3, fileV2] = some fileV2) ∧
    (fileV3 ∈ [fileV3, fileV2] ∧
      ∀ x ∈ [fileV3, fileV2], lexLe (versionKey x) (versionKey fileV3) = true) ∧
    (fileV2 ∈ [fileV3, fileV2] ∧
      ∀ x ∈ [fileV3, fileV2], x.mtime ≤ fileV2.mtime) := by
  have hsorted : List.Pairwise (fun a b => fitFileGe a b) [fileV3, fileV2] := by
    refine List.Pairwise.cons ?_ (List.pairwise_singleton _ _)
    intro b hb
    have hb' : b = fileV2 := by simpa using hb
    subst hb'
    decide
  have h1 : localSelect [fileV3, fileV2] = some fileV3 := by
    unfold localSelect get_fit_files
    rw [List.mergeSort_of_sorted hsorted]
    rfl
  have h2 : selectFitFile [fileV3, fileV2] = some fileV2 := by decide
  exact ⟨⟨h1, h2⟩,
    (claim_C5_source_selection [fileV3, fileV2] fileV3 fileV2).1 h1,
    (claim_C5_source_selection [fileV3, fileV2] fileV3 fileV2).2 h2⟩

/-- One download attempt issues at most one transfer request. -/
theorem downloadAttempt_requests_le (db : List Nat) (aid : Nat)
    (resp : HttpResp) : (downloadAttempt db aid resp).requests ≤ 1 := by
  unfold downloadAttempt
  split
  · exact Nat.zero_le _
  · cases resp <;> simp

/-- A whole `download_activity` run issues at most one transfer request and
never reaches a refresh call. -/
theorem download_activity_requests_le (db : List Nat) (aid : Nat)
    (r1 : HttpResp) :
    (download_activity db aid r1).requests ≤ 1 ∧
      (download_activity db aid r1).refreshes = 0 := by
  have h1 := downloadAttempt_requests_le db aid r1
  simp only [download_activity]
  split <;> exact ⟨h1, rfl⟩

/-- Lemma: `get_filtered_activities` answers `n` leading 401s with `n + 1` requests
and `n` refresh calls before the first non-401 response ends the
recursion. -/
theorem get_filtered_activities_replicate (n : Nat) :
    get_filtered_activities (List.replicate n .unauthorized ++ [.ok]) =
      some (n + 1, n) := by
  induction n with
  | zero => rfl
  | succ k ih =>
      simp only [List.replicate_succ, List.cons_append, get_filtered_activities,
        List.append_eq, ih]

/-- Claim C6 counterexample: neither destination call behaves as claimed.
On a fresh ledger a first-attempt 401 makes
`ActivityDownloader.download_activity` raise `AttributeError` — the refresh
is reached through `session.auth`, which is never assigned — after exactly
one request, with no refresh, no retry and the ledger unchanged, where the
claim demands one refresh and one retried attempt; and
`StravaClient.get_filtered_activities` answers responses 401, 401, ok with
3 requests and 2 refresh calls ending in success, where the claim demands
exactly 2 attempts ending in terminal failure. -/
theorem claim_C6_counterexample :
    download_activity [] 1 .unauthorized =
      ⟨.attributeError, [], 1, 0⟩ ∧
    get_filtered_activities [.unauthorized, .unauthorized, .ok] = some (3, 2) ∧
    2 < 3 := by
  exact ⟨rfl, rfl, by decide⟩

/-- Claim C6, amended: neither call site performs the claimed
refresh-once-then-retry-once.  `ActivityDownloader.download_activity`
reaches the refresh through `session.auth`, which is never assigned, so a
first-attempt 401 ends in an uncaught `AttributeError` after exactly one
transfer request, with no refresh, no retry and the ledger unchanged — and
no run of it ever issues more than one request or any refresh;
`StravaClient.get_filtered_activities` refreshes through the auth object
and recursively re-invokes itself, one refresh per 401, with no bound:
`n` leading 401s yield `n + 1` requests and `n` refreshes. -/
theorem claim_C6_retry_behavior (db : List Nat) (aid : Nat) (r1 : HttpResp)
    (h : aid ∉ db) (n : Nat) :
    download_activity db aid .unauthorized = ⟨.attributeError, db, 1, 0⟩ ∧
    (download_activity db aid r1).requests ≤ 1 ∧
    (download_activity db aid r1).refreshes = 0 ∧
    get_filtered_activities (List.replicate n .unauthorized ++ [.ok]) =
      some (n + 1, n) := by
  have hnd : is_downloaded db aid = false := by
    simp [is_downloaded, h]
  refine ⟨?_, (download_activity_requests_le db aid r1).1,
    (download_activity_requests_le db aid r1).2,
    get_filtered_activities_replicate n⟩
  simp [download_activity, downloadAttempt, hnd]

/-- Witness for C6: a fresh ledger and activity 1; the 401 outcome, the
one-request no-refresh bound and the recursion count at `n = 0` hold. -/
theorem claim_C6_retry_behavior_witness :
    (1 : Nat) ∉ ([] : List Nat) ∧
    (download_activity [] 1 .unauthorized = ⟨.attributeError, [], 1, 0⟩ ∧
    (download_activity [] 1 .ok).requests ≤ 1 ∧
    (download_activity [] 1 .ok).refreshes = 0 ∧
    get_filtered_activities (List.replicate 0 .unauthorized ++ [.ok]) =
      some (0 + 1, 0)) :=
  ⟨by decide, claim_C6_retry_behavior [] 1 .ok (by decide) 0⟩

/-- Claim C7: an activity id already in the ledger makes the downloader return
without any transfer request and with the ledger unchanged, and
`mark_downloaded` is an idempotent insert-if-absent: marking an id that is
present is a no-op, and marking twice equals marking once. -/
theorem claim_C7_idempotent_ledger (db : List Nat) (aid : Nat)
    (r1 : HttpResp) (h : aid ∈ db) :
    download_activity db aid r1 = ⟨.alreadyDownloaded, db, 0, 0⟩ ∧
    mark_downloaded db aid = db ∧
    mark_downloaded (mark_downloaded db aid) aid = mark_downloaded db aid := by
  have hd : is_downloaded db aid = true := by simp [is_downloaded, h]
  refine ⟨?_, ?_, ?_⟩
  · simp [download_activity, downloadAttempt, hd]
  · simp [mark_downloaded, h]
  · unfold mark_downloaded
    split
    · simp [h]
    · simp [h]

/-- Witness for C7: activity 5 already recorded in the ledger `[5]`. -/
theorem claim_C7_idempotent_ledger_witness :
    (5 : Nat) ∈ [5] ∧
    (download_activity [5] 5 .ok = ⟨.alreadyDownloaded, [5], 0, 0⟩ ∧
    mark_downloaded [5] 5 = [5] ∧
    mark_downloaded (mark_downloaded [5] 5) 5 = mark_downloaded [5] 5) :=
  ⟨by decide, claim_C7_idempotent_ledger [5] 5 .ok (by decide)⟩

/-- Claim C8 counterexample: on a duplicate-activity error
`UploadManager.upload_file` re-raises instead of treating it as success, and
the `main` run of strava/test.py ends with exit code 1 — the claim demands
that no error is propagated and the run terminates successfully. -/
theorem claim_C8_counterexample :
    upload_file .duplicateError = .raised .duplicateError ∧
    (mainRun [fileV2] .duplicateError).exitCode = 1 := by
  have hs : get_fit_files [fileV2] = [fileV2] := List.mergeSort_singleton _
  exact ⟨rfl, by simp [mainRun, hs, upload_file]⟩

/-- Claim C8, amended: `upload_fit_file_to_garmin` (myWhoosh2Garmin.py) does
catch the duplicate-activity error and return normally, so that run
succeeds — but no delivery ledger exists there to be marked; in
strava/test.py, `UploadManager.upload_file` logs and re-raises the error
and `main` exits 1. -/
theorem claim_C8_duplicate_handling (f : FsFile) :
    upload_fit_file_to_garmin true .duplicateError =
      MwUploadOutcome.errorSwallowed ∧
    upload_file .duplicateError = .raised .duplicateError ∧
    (mainRun [f] .duplicateError).exitCode = 1 := by
  have hs : get_fit_files [f] = [f] := List.mergeSort_singleton _
  exact ⟨rfl, rfl, by simp [mainRun, hs, upload_file]⟩

/-- Claim C9 counterexample: with an empty candidate listing the claim demands
a terminal `SourceNotFound` and a non-zero exit code, but `main`
(strava/test.py) logs and returns normally — the process exits 0. -/
theorem claim_C9_counterexample :
    (mainRun [] .ack).exitCode = 0 := by
  simp [mainRun, get_fit_files]

/-- Claim C9, amended: an empty listing stops the run before any transform,
backup write or upload — `main` logs "No FIT files found" and returns, and
`cleanup_and_save_fit_file`'s selection yields no file — but no
`SourceNotFound` error is raised and the process exits 0, not non-zero. -/
theorem claim_C9_empty_listing (resp : UploadResp) :
    mainRun [] resp = ⟨0, false, false⟩ ∧
    selectFitFile [] = none := by
  constructor
  · simp [mainRun, get_fit_files]
  · rfl

/-- Claim C10: when no persisted token file exists and no credentials are
passed, `GarminAuthenticator.authenticate` returns normally having
established no session and raised nothing — the caller observes success
although no authentication happened. -/
theorem claim_C10_silent_no_auth (sessionValid loginOk : Bool) :
    authenticate false sessionValid none loginOk =
      AuthOutcome.returnedWithoutSession ∧
    authenticate false sessionValid none loginOk ≠ AuthOutcome.resumedSession ∧
    authenticate false sessionValid none loginOk ≠ AuthOutcome.fullAuthDone := by
  cases sessionValid <;> cases loginOk <;> exact ⟨rfl, by decide, by decide⟩

/-- Witness for C4: a sample that carried temperature 25 appears in the
output with the field stripped. -/
theorem claim_C4_temperature_removed_witness :
    Message.sample (some 1) (some 2) (some 3) none ∈
      cleanup_fit_file [Message.sample (some 1) (some 2) (some 3) (some 25)] ∧
    (Message.sample (some 1) (some 2) (some 3) none).hasTemperature = false :=
  ⟨by decide,
    (claim_C4_temperature_removed
      [Message.sample (some 1) (some 2) (some 3) (some 25)]
      (Message.sample (some 1) (some 2) (some 3) none)).1 (by decide)⟩

end MW2G
